import Mathlib

/-!
# Verification of the services.ge backend core

A shallow embedding, in Lean 4, of the query-feature utility (`APIFeatures`:
predicate building, sorting, field projection, pagination), the review
statistics recomputer (`updateServiceStats`), the review and service
controllers, and the global error handler of the services.ge repository.

Conventions of the embedding:
* JavaScript numbers are modelled as `Rat` (the repository only ever produces
  numbers by parsing decimal strings, averaging ratings and counting, all of
  which are exact in `Rat`; floating-point rounding is not modelled).
* `NaN` is modelled as `none` in an `Option`: a JS expression producing either
  a number or `NaN` becomes an `Option Rat` / `Option Int`.
* JS objects used as MongoDB filter documents are modelled as association
  lists in insertion order (`setKey` reproduces JS assignment semantics:
  an existing key keeps its position and gets the new value, a new key is
  appended).  The filter values reachable in this code are at most two levels
  deep (a field maps to a scalar or to an object of scalar operator bindings),
  so the value type is stratified into `SVal` (scalars) and `MVal`.
* The model of the JS builtins `Number`/`isNaN` (`jsStrToNumber`) covers
  whitespace trimming, the empty string (which converts to `0`), and signed
  decimal literals with optional fraction and exponent.  The exotic literal
  forms (`Infinity`, hexadecimal, octal, binary) are not modelled.
* The model of `parseInt(x, 10)` (`parseIntJS`) covers leading-whitespace
  skipping, an optional sign, and a leading run of decimal digits (trailing
  garbage ignored), returning `none` for `NaN`; `parseInt(undefined, 10)`
  is `NaN`, hence `parseIntJS none = none`.
-/

namespace ServicesGe

/-- Value of a run of decimal digit characters, most significant first. -/
def natOfDigits (l : List Char) : Nat :=
  l.foldl (fun acc c => 10 * acc + (c.toNat - 48)) 0

/-- Whitespace trimming on both ends of a character list: the model of the
JS (and `String.trim`) behaviour for the strings this code handles. -/
def trimCh (l : List Char) : List Char :=
  ((l.dropWhile Char.isWhitespace).reverse.dropWhile Char.isWhitespace).reverse

/-- Split a character list at every comma, the model of `s.split(',')`
(an empty input yields one empty piece, like JS `"".split(',')`). -/
def splitCommaCh : List Char → List (List Char)
  | [] => [[]]
  | c :: rest =>
    if c = ',' then [] :: splitCommaCh rest
    else
      match splitCommaCh rest with
      | [] => [[c]]
      | h :: t => (c :: h) :: t

/-- Model of the optional exponent part of a JS decimal number literal.
`m` is the already-parsed mantissa; `l` is the unconsumed remainder of the
literal, which must be empty or a full exponent part (`e`/`E`, optional
sign, at least one digit). -/
def parseExpPart (m : Rat) (l : List Char) : Option Rat :=
  match l with
  | [] => some m
  | c :: rest =>
    if c = 'e' ∨ c = 'E' then
      let (neg, digs) :=
        match rest with
        | '+' :: ds => (false, ds)
        | '-' :: ds => (true, ds)
        | ds => (false, ds)
      if digs ≠ [] ∧ digs.all Char.isDigit then
        let k := natOfDigits digs
        some (if neg then m / (10 : Rat) ^ k else m * (10 : Rat) ^ k)
      else none
    else none

/-- Model of an unsigned JS decimal number literal: digits with optional
fraction (`12`, `12.`, `12.5`, `.5`) and optional exponent. -/
def parseDecCore (l : List Char) : Option Rat :=
  let ip := l.takeWhile Char.isDigit
  let r1 := l.dropWhile Char.isDigit
  match r1 with
  | '.' :: r2 =>
    let fp := r2.takeWhile Char.isDigit
    let r3 := r2.dropWhile Char.isDigit
    if ip = [] ∧ fp = [] then none
    else parseExpPart ((natOfDigits (ip ++ fp) : Rat) / (10 : Rat) ^ fp.length) r3
  | _ =>
    if ip = [] then none else parseExpPart ((natOfDigits ip : Rat)) r1

/-- Model of the JS string-to-number conversion used by `isNaN(value)` and
`Number(value)`: trim, empty string is `0`, otherwise a signed decimal
literal; `none` models `NaN`. -/
def jsStrToNumber (s : String) : Option Rat :=
  match trimCh s.data with
  | [] => some 0
  | '+' :: rest => parseDecCore rest
  | '-' :: rest => (parseDecCore rest).map Neg.neg
  | l => parseDecCore l

/-- Model of `parseInt(s, 10)` on a character list: skip leading whitespace,
optional sign, then the leading run of decimal digits; `none` models `NaN`. -/
def parseIntChars (l : List Char) : Option Int :=
  let rest := l.dropWhile Char.isWhitespace
  let (neg, rest2) :=
    match rest with
    | '-' :: r => (true, r)
    | '+' :: r => (false, r)
    | r => (false, r)
  let digs := rest2.takeWhile Char.isDigit
  if digs = [] then none
  else some (if neg then -(natOfDigits digs : Int) else (natOfDigits digs : Int))

/-- Model of `parseInt(x, 10)` where `x` is an optional string
(`none` = the property is absent, i.e. `undefined`, whose `parseInt` is `NaN`). -/
def parseIntJS : Option String → Option Int
  | none => none
  | some s => parseIntChars s.data

/-- Model of `a || d` for a JS number `a` that may be `NaN` (`none`):
`NaN` and `0` are falsy and select the default. -/
def orFalsyInt (o : Option Int) (d : Int) : Int :=
  match o with
  | none => d
  | some v => if v = 0 then d else v

/-- Scalar-level MongoDB filter value produced by the predicate builder:
a coerced number, a string, or an array of strings (the `$all` operand). -/
inductive SVal where
  | num (q : Rat)
  | str (s : String)
  | arr (l : List String)
deriving DecidableEq, Repr

/-- A binding in the constructed filter document: either a scalar equality
value or an object of scalar bindings (range operators, and any properties
leaked into it by JS object spread). -/
inductive MVal where
  | scalar (v : SVal)
  | obj (m : List (String × SVal))
deriving DecidableEq, Repr

/-- JS object assignment `o[k] = v` on an insertion-ordered association list:
an existing key keeps its position and receives the new value, a fresh key is
appended.  Also the semantics of the object literal `{...prev, k: v}`. -/
def setKey {α : Type} : List (String × α) → String → α → List (String × α)
  | [], k, v => [(k, v)]
  | (k', v') :: rest, k, v =>
    if k' = k then (k, v) :: rest else (k', v') :: setKey rest k v

/-- JS property read `o[k]` on an association list. -/
def lookupKey {α : Type} (m : List (String × α)) (k : String) : Option α :=
  match m with
  | [] => none
  | (k', v') :: rest => if k' = k then some v' else lookupKey rest k

/-- The four range operators recognised by the predicate builder's regex
`^(.+)\[(gte|gt|lte|lt)\]$`. -/
inductive ROp where
  | gte
  | gt
  | lte
  | lt
deriving DecidableEq, Repr

/-- The characters of a range operator token. -/
def opChars : ROp → List Char
  | .gte => ['g', 't', 'e']
  | .gt => ['g', 't']
  | .lte => ['l', 't', 'e']
  | .lt => ['l', 't']

/-- The MongoDB operator key `"$" + op` built by the filter loop. -/
def dollarOf : ROp → String
  | .gte => "$gte"
  | .gt => "$gt"
  | .lte => "$lte"
  | .lt => "$lt"

/-- The suffix `[op]` that the regex requires at the end of the key. -/
def rangeSuffix (op : ROp) : List Char := '[' :: opChars op ++ [']']

/-- Strip an exact prefix from a character list. -/
def dropPrefixCh : List Char → List Char → Option (List Char)
  | [], l => some l
  | _ :: _, [] => none
  | p :: ps, c :: cs => if c = p then dropPrefixCh ps cs else none

/-- Strip an exact suffix from a character list. -/
def dropSuffixCh (l suf : List Char) : Option (List Char) :=
  (dropPrefixCh suf.reverse l.reverse).map List.reverse

/-- Model of the key match `key.match(/^(.+)\[(gte|gt|lte|lt)\]$/)`:
the key must end in `[op]` for one of the four operators, with a non-empty
field part before it.  (The decomposition is unique — see
`rangeKey_decomp_unique` — so trying the suffixes in the regex's alternation
order is faithful.) -/
def parseRangeKeyCh (l : List Char) : Option (List Char × ROp) :=
  match dropSuffixCh l (rangeSuffix .gte) with
  | some f => if f = [] then none else some (f, ROp.gte)
  | none =>
    match dropSuffixCh l (rangeSuffix .gt) with
    | some f => if f = [] then none else some (f, ROp.gt)
    | none =>
      match dropSuffixCh l (rangeSuffix .lte) with
      | some f => if f = [] then none else some (f, ROp.lte)
      | none =>
        match dropSuffixCh l (rangeSuffix .lt) with
        | some f => if f = [] then none else some (f, ROp.lt)
        | none => none

/-- String-level wrapper of `parseRangeKeyCh`. -/
def parseRangeKey (k : String) : Option (String × ROp) :=
  (parseRangeKeyCh k.data).map (fun p => (String.mk p.1, p.2))

/-- Model of `isNaN(value) ? value : Number(value)`: a value whose string
form converts to a number becomes that number, any other value stays a
string. -/
def coerceSVal (v : String) : SVal :=
  match jsStrToNumber v with
  | some q => SVal.num q
  | none => SVal.str v

/-- Own enumerable properties of a JS string, as produced by object spread:
`{..."ab"}` is `{0: "a", 1: "b"}`. -/
def indexedChars (s : String) : List (String × SVal) :=
  s.data.enum.map (fun p => (toString p.1, SVal.str (String.singleton p.2)))

/-- Own enumerable properties of a JS array of strings under object spread. -/
def indexedElems (l : List String) : List (String × SVal) :=
  l.enum.map (fun p => (toString p.1, SVal.str p.2))

/-- Object spread `{...mongoQuery[field]}`: spreading an absent property or a
number contributes nothing, spreading an object copies its (own enumerable)
entries, spreading a string contributes its characters under their index
keys. -/
def spreadOf : Option MVal → List (String × SVal)
  | none => []
  | some (.obj m) => m
  | some (.scalar (.num _)) => []
  | some (.scalar (.str s)) => indexedChars s
  | some (.scalar (.arr l)) => indexedElems l

/-- One iteration of the `for (const [key, value] of Object.entries(filters))`
loop in `APIFeatures.filter`: a key matching the range pattern writes
`mongoQuery[field] = {...mongoQuery[field], ["$" + op]: coerced}`, any other
key writes `mongoQuery[key] = coerced`. -/
def filterStep (mq : List (String × MVal)) (kv : String × String) :
    List (String × MVal) :=
  match parseRangeKey kv.1 with
  | some (f, op) =>
    setKey mq f (MVal.obj (setKey (spreadOf (lookupKey mq f))
      (dollarOf op) (coerceSVal kv.2)))
  | none => setKey mq kv.1 (MVal.scalar (coerceSVal kv.2))

/-- The parsed query string of a list request, after the destructuring
`const { page, sort, limit, fields, tags, ...filters } = this.queryString`.
The five reserved parameters are optional strings (`none` = absent) and
`filters` holds the remaining key/value pairs in enumeration order. -/
structure ReqQuery where
  page : Option String := none
  sort : Option String := none
  limit : Option String := none
  fields : Option String := none
  tags : Option String := none
  filters : List (String × String) := []

/-- Model of `tags.split(',').map(tag => tag.trim()).filter(Boolean)`:
split on commas, trim each token, drop empty (falsy) tokens. -/
def splitTags (t : String) : List String :=
  ((splitCommaCh t.data).map (fun l => String.mk (trimCh l))).filter (fun x => x ≠ "")

/-- JS truthiness of an optional string: absent and empty are falsy. -/
def truthy : Option String → Bool
  | none => false
  | some s => s ≠ ""

/-- The full filter document constructed by `APIFeatures.filter`: the loop
over the non-reserved keys, then (when `tags` is truthy and some tokens
survive splitting) `mongoQuery.tags = { $all: tagArr }`. -/
def buildMongoQuery (q : ReqQuery) : List (String × MVal) :=
  let base := q.filters.foldl filterStep []
  match q.tags with
  | some t =>
    if t = "" then base
    else
      let arr := splitTags t
      if arr = [] then base
      else setKey base ("tags") (MVal.obj [(("$all"), SVal.arr arr)])
  | none => base

/-- Model of `const page = parseInt(this.queryString.page, 10) || 1` in
`APIFeatures.paginate`. -/
def effPage (q : ReqQuery) : Int := orFalsyInt (parseIntJS q.page) 1

/-- Model of `const limit = parseInt(this.queryString.limit, 10) || 100` in
`APIFeatures.paginate`. -/
def effLimit (q : ReqQuery) : Int := orFalsyInt (parseIntJS q.limit) 100

/-- Model of `const skip = (page - 1) * limit` in `APIFeatures.paginate`. -/
def skipOf (q : ReqQuery) : Int := (effPage q - 1) * effLimit q

/-- The sort specification built by `APIFeatures.sort`:
`sort.split(',').join(' ')`, defaulting to descending creation time. -/
def sortSpec (q : ReqQuery) : String :=
  match q.sort with
  | some s => String.intercalate (" ") (s.splitOn (","))
  | none => "-createdAt"

/-- The projection specification built by `APIFeatures.limitFields`:
`fields.split(',').join(' ')`, defaulting to excluding the version key. -/
def selectSpec (q : ReqQuery) : String :=
  match q.fields with
  | some s => String.intercalate (" ") (s.splitOn (","))
  | none => "-__v"

/-! ## Data model

The fields of the Mongoose schemas that the modelled operations read or
write.  Document ids are `Nat` (fresh ids issued by a counter, standing in
for ObjectId generation).  The Service schema's static fields (title,
description, price, tags, images, timestamps) are never touched by the
operations below and are elided. -/

/-- A document of the Review collection (`review.model.js`). -/
structure ReviewDoc where
  id : Nat
  serviceId : Nat
  userId : Nat
  rating : Rat
  comment : String
deriving DecidableEq, Repr

/-- A document of the Service collection (`service.model.js`), restricted to
the fields the modelled operations use: owner, the two derived statistics
and the denormalized back-reference list of review ids. -/
structure ServiceDoc where
  id : Nat
  providerID : Nat
  averageRating : Rat
  totalReviews : Nat
  reviews : List Nat
deriving DecidableEq, Repr

/-- The persistent state: both collections plus the id counter. -/
structure DB where
  services : List ServiceDoc
  reviews : List ReviewDoc
  nextId : Nat
deriving DecidableEq, Repr

/-- Model of `Service.findById(sid)`. -/
def serviceById (db : DB) (sid : Nat) : Option ServiceDoc :=
  db.services.find? (fun s => s.id == sid)

/-- Model of `Review.findById(rid)`. -/
def reviewById (db : DB) (rid : Nat) : Option ReviewDoc :=
  db.reviews.find? (fun r => r.id == rid)

/-- The `$match: { serviceId }` stage of the aggregation in
`updateServiceStats`. -/
def matchingReviews (db : DB) (sid : Nat) : List ReviewDoc :=
  db.reviews.filter (fun r => r.serviceId == sid)

/-- Model of `Service.findByIdAndUpdate(sid, {averageRating, totalReviews})`:
a no-op when no service carries the id. -/
def writeStats (db : DB) (sid : Nat) (avg : Rat) (total : Nat) : DB :=
  { db with
    services := db.services.map (fun s =>
      if s.id = sid then { s with averageRating := avg, totalReviews := total }
      else s) }

/-- Model of `updateServiceStats(serviceId)` (`helpers/updateServiceStats.js`):
aggregate the reviews of the service (`$match` on `serviceId`, `$group`
computing `$avg` of `rating` and `$sum: 1`; all matched documents share the
one `serviceId`, so the result has one row exactly when a matching review
exists), then write the computed pair back, or `(0, 0)` when the aggregation
returned no rows. -/
def updateServiceStats (db : DB) (sid : Nat) : DB :=
  let stats := matchingReviews db sid
  if stats.length > 0 then
    writeStats db sid (((stats.map (fun r => r.rating)).sum) / (stats.length : Rat))
      stats.length
  else
    writeStats db sid 0 0

/-- Outcome of a review-controller request: a 201 with the created review,
a 204 deletion, or an `AppError` status handed to `next`. -/
inductive ReviewOutcome where
  | created (r : ReviewDoc)
  | deleted
  | appError (code : Nat)
deriving DecidableEq, Repr

/-- Model of `createReview` (`review.controller.js`): 404 when the service is absent,
400 when the user already reviewed it, otherwise insert the review, `$push`
its id onto the service's `reviews` array, recompute the statistics, and
answer 201 with the review. -/
def createReview (db : DB) (uid sid : Nat) (rating : Rat) (comment : String) :
    ReviewOutcome × DB :=
  match serviceById db sid with
  | none => (.appError 404, db)
  | some service =>
    match db.reviews.find? (fun r => r.userId == uid && r.serviceId == sid) with
    | some _ => (.appError 400, db)
    | none =>
      let review : ReviewDoc :=
        { id := db.nextId, serviceId := sid, userId := uid,
          rating := rating, comment := comment }
      let db1 : DB :=
        { db with reviews := db.reviews ++ [review], nextId := db.nextId + 1 }
      let db2 : DB :=
        { db1 with
          services := db1.services.map (fun s =>
            if s.id = sid then { s with reviews := s.reviews ++ [review.id] }
            else s) }
      (.created review, updateServiceStats db2 service.id)

/-- Model of `deleteReview` (`review.controller.js`): 400 on a missing id parameter,
404 when the review is absent, 403 when the requester is not its author,
otherwise `Review.findByIdAndDelete` and a 204.  Note that it touches only
the Review collection: no statistics recomputation and no removal of the id
from the service's `reviews` array. -/
def deleteReview (db : DB) (uid : Nat) (reviewId : Option Nat) :
    ReviewOutcome × DB :=
  match reviewId with
  | none => (.appError 400, db)
  | some rid =>
    match reviewById db rid with
    | none => (.appError 404, db)
    | some review =>
      if review.userId ≠ uid then (.appError 403, db)
      else (.deleted, { db with reviews := db.reviews.filter (fun r => r.id != rid) })

/-- The JSON envelope of the list-services endpoint. -/
structure ListResponse where
  code : Nat
  results : Nat
  services : List ServiceDoc
deriving DecidableEq, Repr

/-- Model of `getServices` (`service.controller.js`): `Service.find()` with no
predicate and no query features — the request's parsed query string is in
scope but never read. -/
def getServices (db : DB) (_q : ReqQuery) : ListResponse :=
  let services := db.services
  { code := 200, results := services.length, services := services }

/-- The collaborator contract of `.skip(skip).limit(limit)` on a cursor
(§6 of the spec): the slice of the ordered result set.  (Used to state what
the Result Shaper would return; only invoked at non-negative windows.) -/
def windowed (l : List ServiceDoc) (skip limit : Int) : List ServiceDoc :=
  (l.drop skip.toNat).take limit.toNat

/-! ## Error handler (`error.controller.js`, `utils/appError.js`)

A JS error value is modelled by `ErrObj`.  `message` and `stack` are set by
the `Error` constructor machinery as own NON-enumerable properties, so the
object spread `{...err}` drops them; the two `…Enum` flags record whether
the concrete object instead carries them as own enumerable data properties
(never the case for the error shapes this application produces, but kept
explicit so the spread semantics is stated once).  `name` is inherited from
the prototype, hence also dropped by spread, while reading `err.name`
still yields it.  The remaining modelled fields (`statusCode`, `status`,
`isOperational`, `code`, `path`, `value`, `keyValue`, `errors`) are own
enumerable data properties on the shapes that reach this handler, so spread
keeps them. -/

structure ErrObj where
  name : Option String := none
  message : Option String := none
  messageEnum : Bool := false
  stack : Option String := none
  stackEnum : Bool := false
  statusCode : Option Int := none
  status : Option String := none
  isOperational : Bool := false
  code : Option Int := none
  path : Option String := none
  value : Option String := none
  keyValue : List (String × String) := []
  errorsMsgs : List String := []
deriving DecidableEq, Repr

/-- Model of `a || d` for a JS string: `undefined` and `""` are falsy. -/
def orFalsyStr (o : Option String) (d : String) : String :=
  match o with
  | none => d
  | some s => if s = "" then d else s

/-- How JS prints `undefined` inside a template literal. -/
def undefinedStr : String := "undefined"

/-- Render an optional string the way a template literal would. -/
def optStr (o : Option String) : String := o.getD undefinedStr

/-- The default/fallback status word of the handler. -/
def statusErrorKa : String := "შეცდომა"

/-- The generic production message for non-operational errors. -/
def genericProdMsg : String := "რამე არასწორად მოხდა"

/-- Status derivation of `AppError`: 4xx codes are reported as a client
failure, anything else as an error.  The source tests
`${statusCode}`.startsWith("4"); for the one-character prefix this is
exactly a first-character test on the printed code. -/
def appErrorStatus (c : Int) : String :=
  if (toString c).data.head? = some ('4') then "fail" else "error"

/-- Model of `new AppError(message, statusCode)` (`utils/appError.js`): `message` is
installed by the `Error` super-constructor (own, non-enumerable), `name`
is read off `Error.prototype`, and `statusCode` / `status` /
`isOperational` are own enumerable assignments.  The captured stack text is
not modelled. -/
def mkAppError (msg : String) (c : Int) : ErrObj :=
  { name := some ("Error"), message := some msg, messageEnum := false,
    stack := none, stackEnum := false,
    statusCode := some c, status := some (appErrorStatus c),
    isOperational := true }

/-- The object spread `{ ...err }`: own enumerable properties survive,
non-enumerable (`message`, `stack` on Error instances) and inherited
(`name`) properties do not. -/
def spreadErr (e : ErrObj) : ErrObj :=
  { e with
    message := if e.messageEnum then e.message else none,
    stack := if e.stackEnum then e.stack else none,
    name := none }

/-- Model of `handleCastErrorDB`. -/
def handleCastErrorDB (e : ErrObj) : ErrObj :=
  mkAppError ("არასწორი მონაცემი " ++ optStr e.path ++ ": " ++ optStr e.value) 400

/-- Model of `handleDuplicateFieldsDB`: the first key of `err.keyValue` and its
value, interpolated into the message. -/
def handleDuplicateFieldsDB (e : ErrObj) : ErrObj :=
  let field := (e.keyValue.head?).elim undefinedStr Prod.fst
  let value := (e.keyValue.head?).elim undefinedStr Prod.snd
  mkAppError ("ველის \x22" ++ field ++ "\x22 მნიშვნელობა \x22" ++ value ++
    "\x22 უკვე გამოიყენება. გთხოვთ, გამოიყენეთ სხვა მნიშვნელობა.") 400

/-- Model of `handleValidationErrorDB`: the per-field messages joined by `". "`. -/
def handleValidationErrorDB (e : ErrObj) : ErrObj :=
  mkAppError ("არასწორი მონაცემები. " ++ String.intercalate (". ") e.errorsMsgs) 400

/-- Model of `handleJWTError`. -/
def handleJWTError : ErrObj :=
  mkAppError ("არასწორი ტოკენი. გთხოვთ, შედით თავიდან!") 401

/-- Model of `handleJWTExpiredError`. -/
def handleJWTExpiredError : ErrObj :=
  mkAppError ("თქვენი ტოკენის მოქმედების ვადა ამოიწურა. გთხოვთ, შედით თავიდან!") 401

/-- The serialized error response.  `codeN` is the HTTP status code passed
to `res.status`; `none` fields are absent from the JSON (undefined values
are dropped by serialization); `errorIncluded` records whether the raw
error object was embedded in the body. -/
structure ErrResponse where
  codeN : Option Int
  status : Option String
  message : Option String
  stack : Option String
  errorIncluded : Bool
deriving DecidableEq, Repr

/-- Model of `sendErrorDev`: full detail. -/
def sendErrorDev (e : ErrObj) : ErrResponse :=
  { codeN := e.statusCode, status := e.status, message := e.message,
    stack := e.stack, errorIncluded := true }

/-- Model of `sendErrorProd`: operational errors answer with their own status code,
status and message; anything else gets the generic 500. -/
def sendErrorProd (e : ErrObj) : ErrResponse :=
  if e.isOperational then
    { codeN := e.statusCode, status := e.status, message := e.message,
      stack := none, errorIncluded := false }
  else
    { codeN := some 500, status := some statusErrorKa,
      message := some genericProdMsg, stack := none, errorIncluded := false }

/-- Model of `globalErrorHandler(err, req, res, next)`: default the status code and
status, then dispatch on `NODE_ENV`.  In `prod` the error is shallow-copied
(`let error = { ...err }; error.name = err.name`), the five recognised shapes
are rewritten to fresh `AppError`s, and `sendErrorProd` answers.  Any other
environment value sends no response (`none`). -/
def globalErrorHandler (env : String) (err0 : ErrObj) : Option ErrResponse :=
  let err : ErrObj :=
    { err0 with
      statusCode := some (orFalsyInt err0.statusCode 500),
      status := some (orFalsyStr err0.status statusErrorKa) }
  if env = "dev" then some (sendErrorDev err)
  else if env = "prod" then
    let e0 : ErrObj := { spreadErr err with name := err.name }
    let e1 := if e0.name = some ("CastError") then handleCastErrorDB e0 else e0
    let e2 := if e1.name = some ("ValidationError") then handleValidationErrorDB e1 else e1
    let e3 := if e2.code = some 11000 then handleDuplicateFieldsDB e2 else e2
    let e4 := if e3.name = some ("JsonWebTokenError") then handleJWTError else e3
    let e5 := if e4.name = some ("TokenExpiredError") then handleJWTExpiredError else e4
    some (sendErrorProd e5)
  else none

/-- The `[op]` suffix as a string. -/
def opSuffix (op : ROp) : String := String.mk (rangeSuffix op)

/-- Satisfaction of the MongoDB `$all` operator (§6 collaborator contract):
a document's tag array matches exactly when every listed tag occurs in it —
a conjunction over the list, i.e. superset containment of the listed tags. -/
abbrev satisfiesAll (req docTags : List String) : Prop := ∀ x ∈ req, x ∈ docTags

/-! ## Concrete inputs used by witnesses and counterexamples -/

/-- A review comment (content irrelevant to the modelled control flow). -/
def cmt0 : String := "truly outstanding work"

/-- A service document with no reviews and zero statistics. -/
def svc1 : ServiceDoc :=
  { id := 1, providerID := 9, averageRating := 0, totalReviews := 0, reviews := [] }

/-- Initial state for the create/delete scenario: one service, no reviews. -/
def dbC1init : DB := { services := [svc1], reviews := [], nextId := 10 }

/-- State after user 2 posts a 5-star review on service 1. -/
def dbC1a : DB := (createReview dbC1init 2 1 5 cmt0).2

/-- State after that same user then deletes the review again. -/
def dbC1b : DB := (deleteReview dbC1a 2 (some 10)).2

/-- The state `createReview` builds just before it recomputes statistics:
review 10 inserted and its id pushed onto the service's back-reference. -/
def dbC1mid : DB :=
  { services :=
      [{ id := 1, providerID := 9, averageRating := 0, totalReviews := 0, reviews := [10] }],
    reviews := [{ id := 10, serviceId := 1, userId := 2, rating := 5, comment := cmt0 }],
    nextId := 11 }

/-- A service whose reviews rated 4, 5 and 3 are present in the state. -/
def dbC3 : DB :=
  { services :=
      [{ id := 1, providerID := 7, averageRating := 2, totalReviews := 9,
         reviews := [21, 22, 23] }],
    reviews :=
      [{ id := 21, serviceId := 1, userId := 2, rating := 4, comment := cmt0 },
       { id := 22, serviceId := 1, userId := 3, rating := 5, comment := cmt0 },
       { id := 23, serviceId := 1, userId := 4, rating := 3, comment := cmt0 }],
    nextId := 30 }

/-- Two distinct services, for the pagination counterexample. -/
def dbTwo : DB :=
  { services :=
      [{ id := 1, providerID := 5, averageRating := 0, totalReviews := 0, reviews := [] },
       { id := 2, providerID := 6, averageRating := 0, totalReviews := 0, reviews := [] }],
    reviews := [], nextId := 3 }

/-- The production environment tag checked by the error handler. -/
def envProd : String := "prod"

/-- The development environment tag checked by the error handler. -/
def envDev : String := "dev"

/-- An operational error's user-safe message. -/
def opMsg : String := "resource not found"

/-- A programming error (a thrown `TypeError`: own non-enumerable message,
prototype name, no `isOperational` marker). -/
def progErr : ErrObj := { name := some ("TypeError"), message := some ("boom") }

/-! ## Formalizations of claims refuted below

Each `claim…Prop` renders the spec claim's words over the embedded
definitions, to be refuted by an explicit counterexample. -/

/-- Claim C2, specialised to requests without filter keys (for which the
§4.1 predicate is empty and matches every document, and sorting/projection
do not change the count): a list response reflecting the page/limit
parameters would contain exactly the §4.2 pagination window of the
collection. -/
def claimC2Prop : Prop :=
  ∀ (db : DB) (q : ReqQuery), q.filters = [] → q.tags = none →
    (getServices db q).services.length =
      (windowed db.services (skipOf q) (effLimit q)).length

/-- Claim C6's guarantee that the effective pagination parameters are
always at least 1. -/
def claimC6Prop : Prop := ∀ q : ReqQuery, 1 ≤ effPage q ∧ 1 ≤ effLimit q

/-- Claim C10's assertion that a range key enumerated after a bare key on
the same field discards the bare key's scalar, leaving only the fresh
operator binding. -/
def claimC10Prop : Prop :=
  ∀ (f u v : String) (op : ROp), f ≠ "" → parseRangeKey f = none →
    lookupKey (List.foldl filterStep [] [(f, u), (f ++ opSuffix op, v)]) f =
      some (MVal.obj [(dollarOf op, coerceSVal v)])

/-! ## Association-list lemmas -/

theorem lookupKey_setKey_self {α : Type} (m : List (String × α)) (k : String) (v : α) :
    lookupKey (setKey m k v) k = some v := by
  induction m with
  | nil => simp [setKey, lookupKey]
  | cons hd tl ih =>
    obtain ⟨k', v'⟩ := hd
    by_cases h : k' = k
    · simp [setKey, h, lookupKey]
    · simp [setKey, h, lookupKey, ih]

theorem lookupKey_setKey_ne {α : Type} (m : List (String × α)) (k k' : String) (v : α)
    (h : k' ≠ k) : lookupKey (setKey m k v) k' = lookupKey m k' := by
  induction m with
  | nil => simp [setKey, lookupKey, Ne.symm h]
  | cons hd tl ih =>
    obtain ⟨k'', v''⟩ := hd
    by_cases h2 : k'' = k
    · subst h2
      simp [setKey, lookupKey, Ne.symm h, h]
    · by_cases h3 : k'' = k'
      · subst h3
        simp [setKey, h2, lookupKey]
      · simp [setKey, h2, lookupKey, h3, ih]

/-! ## Correctness of the range-key parser -/

theorem dropPrefixCh_eq_some (p l r : List Char) :
    dropPrefixCh p l = some r ↔ l = p ++ r := by
  induction p generalizing l with
  | nil => simp [dropPrefixCh]
  | cons c cs ih =>
    cases l with
    | nil => simp [dropPrefixCh]
    | cons d ds =>
      by_cases h : d = c
      · subst h
        simp [dropPrefixCh, ih]
      · simp [dropPrefixCh, h]

theorem dropSuffixCh_eq_some (l s f : List Char) :
    dropSuffixCh l s = some f ↔ l = f ++ s := by
  simp only [dropSuffixCh, Option.map_eq_some', dropPrefixCh_eq_some]
  constructor
  · rintro ⟨a, ha, rfl⟩
    have h2 := congrArg List.reverse ha
    simpa [List.reverse_append] using h2
  · rintro rfl
    exact ⟨f.reverse, by simp [List.reverse_append], by simp⟩

/-- Splitting at the last `'['` of a list that is bracket-free on the left
part is unambiguous. -/
theorem bracketFree_split {x u : List Char} :
    ∀ {y v : List Char}, (∀ c ∈ x, c ≠ '[') → (∀ c ∈ y, c ≠ '[') →
    x ++ '[' :: u = y ++ '[' :: v → x = y ∧ u = v := by
  induction x with
  | nil =>
    intro y v _ hy h
    cases y with
    | nil => simpa using h
    | cons d ds =>
      exfalso
      injection h with h1 _
      exact hy d (by simp) h1.symm
  | cons c cs ih =>
    intro y v hx hy h
    cases y with
    | nil =>
      exfalso
      injection h with h1 _
      exact hx c (by simp) h1
    | cons d ds =>
      injection h with h1 h2
      subst h1
      obtain ⟨h3, h4⟩ := ih (fun a ha => hx a (by simp [ha]))
        (fun a ha => hy a (by simp [ha])) h2
      exact ⟨by rw [h3], h4⟩

/-- A key decomposes in at most one way as `field ++ "[" ++ op ++ "]"` with a
bracket-free operator token. -/
theorem rangeKey_decomp_unique {f g o p : List Char}
    (ho : ∀ c ∈ o, c ≠ '[') (hp : ∀ c ∈ p, c ≠ '[')
    (h : f ++ '[' :: (o ++ [']']) = g ++ '[' :: (p ++ [']'])) : f = g ∧ o = p := by
  have h1 : (f ++ '[' :: o) ++ [']'] = (g ++ '[' :: p) ++ [']'] := by
    simpa [List.append_assoc] using h
  have h2 : f ++ '[' :: o = g ++ '[' :: p := List.append_cancel_right h1
  have h3 : o.reverse ++ '[' :: f.reverse = p.reverse ++ '[' :: g.reverse := by
    have := congrArg List.reverse h2
    simpa [List.reverse_append, List.append_assoc] using this
  obtain ⟨h4, h5⟩ := bracketFree_split
    (fun c hc => ho c (List.mem_reverse.mp hc))
    (fun c hc => hp c (List.mem_reverse.mp hc)) h3
  constructor
  · have := congrArg List.reverse h5
    simpa using this
  · have := congrArg List.reverse h4
    simpa using this

theorem opChars_bracketFree : ∀ r : ROp, ∀ c ∈ opChars r, c ≠ '[' := by
  intro r
  cases r <;> decide

theorem opChars_injective : ∀ a b : ROp, opChars a = opChars b → a = b := by
  intro a b
  cases a <;> cases b <;> decide

/-- Stripping the suffix of one operator cannot succeed on a key built from
a different operator. -/
theorem dropSuffixCh_rangeSuffix_ne {l f : List Char} {op op' : ROp}
    (h : l = f ++ rangeSuffix op) (hne : op ≠ op') :
    dropSuffixCh l (rangeSuffix op') = none := by
  cases hd : dropSuffixCh l (rangeSuffix op') with
  | none => rfl
  | some f1 =>
    exfalso
    have h2 := (dropSuffixCh_eq_some _ _ _).mp hd
    rw [h] at h2
    have h3 : f ++ '[' :: (opChars op ++ [']']) = f1 ++ '[' :: (opChars op' ++ [']']) := by
      simpa [rangeSuffix] using h2
    exact hne (opChars_injective _ _
      (rangeKey_decomp_unique (opChars_bracketFree op) (opChars_bracketFree op') h3).2)

theorem parseRangeKeyCh_some_of {l f : List Char} {op : ROp}
    (h : l = f ++ rangeSuffix op) (hf : f ≠ []) :
    parseRangeKeyCh l = some (f, op) := by
  have hself : dropSuffixCh l (rangeSuffix op) = some f := (dropSuffixCh_eq_some _ _ _).mpr h
  cases op with
  | gte => simp [parseRangeKeyCh, hself, hf]
  | gt =>
    simp [parseRangeKeyCh, dropSuffixCh_rangeSuffix_ne h (by decide : ROp.gt ≠ ROp.gte),
      hself, hf]
  | lte =>
    simp [parseRangeKeyCh, dropSuffixCh_rangeSuffix_ne h (by decide : ROp.lte ≠ ROp.gte),
      dropSuffixCh_rangeSuffix_ne h (by decide : ROp.lte ≠ ROp.gt), hself, hf]
  | lt =>
    simp [parseRangeKeyCh, dropSuffixCh_rangeSuffix_ne h (by decide : ROp.lt ≠ ROp.gte),
      dropSuffixCh_rangeSuffix_ne h (by decide : ROp.lt ≠ ROp.gt),
      dropSuffixCh_rangeSuffix_ne h (by decide : ROp.lt ≠ ROp.lte), hself, hf]

theorem parseRangeKeyCh_some_inv {l f : List Char} {op : ROp}
    (h : parseRangeKeyCh l = some (f, op)) :
    l = f ++ rangeSuffix op ∧ f ≠ [] := by
  unfold parseRangeKeyCh at h
  cases h1 : dropSuffixCh l (rangeSuffix .gte) with
  | some f1 =>
    rw [h1] at h
    by_cases he : f1 = [] <;> simp [he] at h
    obtain ⟨rfl, rfl⟩ := h
    exact ⟨(dropSuffixCh_eq_some _ _ _).mp h1, he⟩
  | none =>
    rw [h1] at h
    cases h2 : dropSuffixCh l (rangeSuffix .gt) with
    | some f2 =>
      rw [h2] at h
      by_cases he : f2 = [] <;> simp [he] at h
      obtain ⟨rfl, rfl⟩ := h
      exact ⟨(dropSuffixCh_eq_some _ _ _).mp h2, he⟩
    | none =>
      rw [h2] at h
      cases h3 : dropSuffixCh l (rangeSuffix .lte) with
      | some f3 =>
        rw [h3] at h
        by_cases he : f3 = [] <;> simp [he] at h
        obtain ⟨rfl, rfl⟩ := h
        exact ⟨(dropSuffixCh_eq_some _ _ _).mp h3, he⟩
      | none =>
        rw [h3] at h
        cases h4 : dropSuffixCh l (rangeSuffix .lt) with
        | some f4 =>
          rw [h4] at h
          by_cases he : f4 = [] <;> simp [he] at h
          obtain ⟨rfl, rfl⟩ := h
          exact ⟨(dropSuffixCh_eq_some _ _ _).mp h4, he⟩
        | none => rw [h4] at h; simp at h

/-- A well-formed range key `field ++ "[" ++ op ++ "]"` parses to its parts. -/
theorem parseRangeKey_append {f : String} {op : ROp} (hf : f ≠ "") :
    parseRangeKey (f ++ opSuffix op) = some (f, op) := by
  have hd : (f ++ opSuffix op).data = f.data ++ rangeSuffix op := by
    simp [String.data_append, opSuffix]
  have hfd : f.data ≠ [] := by
    intro hc
    exact hf (String.ext hc)
  rw [parseRangeKey, parseRangeKeyCh_some_of hd hfd]
  rfl

/-! ## Statistics recomputer lemmas -/

theorem find?_map_stats (l : List ServiceDoc) (sid : Nat) (avg : Rat) (total : Nat) :
    (l.map (fun s =>
        if s.id = sid then { s with averageRating := avg, totalReviews := total }
        else s)).find? (fun s => s.id == sid) =
      (l.find? (fun s => s.id == sid)).map
        (fun s => { s with averageRating := avg, totalReviews := total }) := by
  induction l with
  | nil => rfl
  | cons s tl ih =>
    by_cases h : s.id = sid
    · simp [List.find?_cons, h]
    · simp [List.find?_cons, h, ih]

theorem serviceById_writeStats (db : DB) (sid : Nat) (avg : Rat) (total : Nat) :
    serviceById (writeStats db sid avg total) sid =
      (serviceById db sid).map
        (fun s => { s with averageRating := avg, totalReviews := total }) := by
  simp only [serviceById, writeStats]
  exact find?_map_stats db.services sid avg total

theorem statsMap_idem (sid : Nat) (avg : Rat) (total : Nat) (l : List ServiceDoc) :
    ((l.map (fun s =>
        if s.id = sid then { s with averageRating := avg, totalReviews := total }
        else s)).map (fun s =>
        if s.id = sid then { s with averageRating := avg, totalReviews := total }
        else s)) =
      l.map (fun s =>
        if s.id = sid then { s with averageRating := avg, totalReviews := total }
        else s) := by
  induction l with
  | nil => rfl
  | cons s tl ih => by_cases h : s.id = sid <;> simp [h, ih]

theorem writeStats_idem (db : DB) (sid : Nat) (avg : Rat) (total : Nat) :
    writeStats (writeStats db sid avg total) sid avg total =
      writeStats db sid avg total := by
  simp only [writeStats]
  rw [statsMap_idem]

/-- C3: `updateServiceStats(serviceId)` writes to the service the arithmetic
mean of the ratings of all matching reviews as `averageRating` and their
count as `totalReviews`; with no matching review it writes `0` and `0`.
Holding for every prior stored pair (`s` is arbitrary). -/
theorem C3_updateServiceStats_writes_aggregate (db : DB) (sid : Nat) (s : ServiceDoc)
    (h : serviceById db sid = some s) :
    serviceById (updateServiceStats db sid) sid =
      some { s with
        averageRating :=
          if matchingReviews db sid = [] then 0
          else ((matchingReviews db sid).map (fun r => r.rating)).sum /
            ((matchingReviews db sid).length : Rat),
        totalReviews := (matchingReviews db sid).length } := by
  by_cases hm : matchingReviews db sid = []
  · simp [updateServiceStats, hm, serviceById_writeStats, h]
  · have hlen : (matchingReviews db sid).length > 0 :=
      List.length_pos.mpr hm
    simp [updateServiceStats, hm, hlen, serviceById_writeStats, h]

/-- Witness: on a service with reviews rated 4, 5 and 3 (and stale stored
statistics), the recomputation stores mean 4 and count 3. -/
theorem C3_witness :
    serviceById (updateServiceStats dbC3 1) 1 =
      some { id := 1, providerID := 7, averageRating := 4, totalReviews := 3,
             reviews := [21, 22, 23] } := by
  have h := C3_updateServiceStats_writes_aggregate dbC3 1
    { id := 1, providerID := 7, averageRating := 2, totalReviews := 9,
      reviews := [21, 22, 23] } (by decide)
  rw [h]
  norm_num [dbC3, matchingReviews, List.filter]
  exact List.cons_ne_nil _ _

/-- C8: the statistics recomputation is idempotent — with no intervening
review change, a second invocation leaves the state of the first. -/
theorem C8_updateServiceStats_idempotent (db : DB) (sid : Nat) :
    updateServiceStats (updateServiceStats db sid) sid = updateServiceStats db sid := by
  have hrev : ∀ a t, matchingReviews (writeStats db sid a t) sid = matchingReviews db sid :=
    fun _ _ => rfl
  by_cases hm : (matchingReviews db sid).length > 0
  · have h1 : updateServiceStats db sid =
        writeStats db sid
          (((matchingReviews db sid).map (fun r => r.rating)).sum /
            ((matchingReviews db sid).length : Rat)) (matchingReviews db sid).length := by
      simp [updateServiceStats, hm]
    rw [h1]
    simp [updateServiceStats, hrev, hm, writeStats_idem]
  · have h1 : updateServiceStats db sid = writeStats db sid 0 0 := by
      simp [updateServiceStats, hm]
    rw [h1]
    simp [updateServiceStats, hrev, hm, writeStats_idem]

/-! ## Review deletion: frame property and the missing recomputation -/

/-- C9: a successful `deleteReview` touches only the Review collection —
the services (including their `reviews` back-reference arrays and stored
statistics) and the id counter are exactly as before. -/
theorem C9_deleteReview_frame (db : DB) (uid : Nat) (rid : Option Nat)
    (_h : (deleteReview db uid rid).1 = ReviewOutcome.deleted) :
    ((deleteReview db uid rid).2).services = db.services ∧
    ((deleteReview db uid rid).2).nextId = db.nextId ∧
    ∀ sid, serviceById ((deleteReview db uid rid).2) sid = serviceById db sid := by
  have aux : ((deleteReview db uid rid).2).services = db.services ∧
      ((deleteReview db uid rid).2).nextId = db.nextId := by
    unfold deleteReview
    cases rid with
    | none => exact ⟨rfl, rfl⟩
    | some r =>
      cases hv : reviewById db r with
      | none => simp [hv]
      | some review =>
        simp only [hv]
        by_cases hu : review.userId ≠ uid <;> simp [hu]
  refine ⟨aux.1, aux.2, fun sid => ?_⟩
  simp [serviceById, aux.1]

/-- Witness: user 2 successfully deletes their review 21 of service 1 and
the Service collection is untouched. -/
theorem C9_witness :
    (deleteReview dbC3 2 (some 21)).1 = ReviewOutcome.deleted ∧
    ((deleteReview dbC3 2 (some 21)).2).services = dbC3.services := by
  have h := C9_deleteReview_frame dbC3 2 (some 21) (by decide)
  exact ⟨by decide, h.1⟩

/-- C1 (evaluation at the failing input): creating a review does run the
statistics recomputer — after user 2 posts the 5-star review the stored
pair becomes (5, 1) — but deleting that same review completes with stale
statistics: no review of service 1 remains, yet the stored pair is still
(5, 1) and the aggregate over the reviews then present is the zero state. -/
theorem C1_delete_skips_recompute :
    (createReview dbC1init 2 1 5 cmt0).1 =
      ReviewOutcome.created
        { id := 10, serviceId := 1, userId := 2, rating := 5, comment := cmt0 } ∧
    serviceById dbC1a 1 =
      some { id := 1, providerID := 9, averageRating := 5, totalReviews := 1,
             reviews := [10] } ∧
    (deleteReview dbC1a 2 (some 10)).1 = ReviewOutcome.deleted ∧
    matchingReviews dbC1b 1 = [] ∧
    serviceById dbC1b 1 =
      some { id := 1, providerID := 9, averageRating := 5, totalReviews := 1,
             reviews := [10] } := by
  have h2 : dbC1a = updateServiceStats dbC1mid 1 := rfl
  have hmid : serviceById dbC1a 1 =
      some { id := 1, providerID := 9, averageRating := 5, totalReviews := 1,
             reviews := [10] } := by
    rw [h2]
    have hmatch : matchingReviews dbC1mid 1 =
        [{ id := 10, serviceId := 1, userId := 2, rating := 5, comment := cmt0 }] := by
      decide
    have hlen : (matchingReviews dbC1mid 1).length > 0 := by rw [hmatch]; decide
    simp only [updateServiceStats, hlen, if_pos, serviceById_writeStats, hmatch]
    norm_num [serviceById, dbC1mid, List.find?]
  have hserv : dbC1b.services = dbC1a.services := rfl
  refine ⟨by decide, hmid, by rw [h2]; decide, by decide, ?_⟩
  rw [show serviceById dbC1b 1 = serviceById dbC1a 1 from by simp [serviceById, hserv]]
  exact hmid

/-! ## Error handler -/

/-- C7 (evaluation at the failing input): in production an operational
`AppError` keeps its status code and status, but its message is absent from
the response — the shallow copy `{...err}` drops the non-enumerable
`message` — whereas development mode surfaces the message, the stack field
and the raw error; a programming error in production gets the generic 500
body. -/
theorem C7_prod_loses_operational_message :
    globalErrorHandler envProd (mkAppError opMsg 404) =
      some { codeN := some 404, status := some ("fail"), message := none,
             stack := none, errorIncluded := false } ∧
    globalErrorHandler envDev (mkAppError opMsg 404) =
      some { codeN := some 404, status := some ("fail"), message := some opMsg,
             stack := none, errorIncluded := true } ∧
    globalErrorHandler envProd progErr =
      some { codeN := some 500, status := some statusErrorKa,
             message := some genericProdMsg, stack := none, errorIncluded := false } := by
  refine ⟨?_, ?_, ?_⟩ <;> decide

/-! ## Pagination -/

/-- C6 is refuted: `parseInt("-1", 10) || 1` keeps `-1`, so the effective
page is not "always at least 1" (and the computed skip is `-200`). -/
theorem C6_counterexample : ¬ claimC6Prop := by
  intro h
  have h2 := (h { page := some ("-1") }).1
  have he : effPage { page := some ("-1") } = -1 := by decide
  rw [he] at h2
  exact absurd h2 (by decide)

/-- C6 amended: `skip = (page-1)*limit`; a missing or non-parsing (`NaN`)
`page`/`limit` silently falls back to the defaults 1 and 100; but a
negative parsed value is used as is, so the effective values are not
guaranteed to be at least 1. -/
theorem C6_pagination_amended (q : ReqQuery) :
    skipOf q = (effPage q - 1) * effLimit q ∧
    (q.page = none → effPage q = 1) ∧
    (q.limit = none → effLimit q = 100) ∧
    (∀ s, q.page = some s → parseIntChars s.data = none → effPage q = 1) ∧
    (∀ s, q.limit = some s → parseIntChars s.data = none → effLimit q = 100) := by
  refine ⟨rfl, ?_, ?_, ?_, ?_⟩
  · intro h
    simp [effPage, parseIntJS, h, orFalsyInt]
  · intro h
    simp [effLimit, parseIntJS, h, orFalsyInt]
  · intro s hs hp
    simp [effPage, parseIntJS, hs, hp, orFalsyInt]
  · intro s hs hp
    simp [effLimit, parseIntJS, hs, hp, orFalsyInt]

/-- Witness: a non-numeric page falls back to 1; absent parameters give
skip 0 and limit 100; `page=2&limit=10` gives skip 10. -/
theorem C6_witness :
    effPage { page := some ("abc") } = 1 ∧
    skipOf {} = 0 ∧ effLimit {} = 100 ∧
    skipOf { page := some ("2"), limit := some ("10") } = 10 := by
  have h1 := (C6_pagination_amended { page := some ("abc") }).2.2.2.1 ("abc") rfl (by decide)
  have h0 := C6_pagination_amended {}
  have h2 := h0.2.1 rfl
  have h3 := h0.2.2.1 rfl
  refine ⟨h1, ?_, h3, ?_⟩
  · rw [h0.1, h2, h3]
    decide
  · rw [(C6_pagination_amended { page := some ("2"), limit := some ("10") }).1]
    decide

/-! ## The list endpoint ignores its query string -/

/-- C2 is refuted: on a two-service collection, a filterless request with
`page=2&limit=1` would have to return the one-element pagination window,
but `getServices` returns both services. -/
theorem C2_counterexample : ¬ claimC2Prop := by
  intro h
  have h2 := h dbTwo { page := some ("2"), limit := some ("1") } rfl rfl
  exact absurd h2 (by decide)

/-- C2 amended: the list-services controller never constructs the
`APIFeatures` pipeline — it answers every request, whatever its query
string, with the full unfiltered, unshaped collection. -/
theorem C2_getServices_ignores_query (db : DB) (q q' : ReqQuery) :
    getServices db q =
      { code := 200, results := db.services.length, services := db.services } ∧
    getServices db q = getServices db q' :=
  ⟨rfl, rfl⟩

/-! ## Tag filtering -/

/-- C5: a truthy `tags` parameter is split on commas, tokens trimmed and
empties dropped; when tokens remain the builder installs a `$all` predicate
over them, whose satisfaction is the conjunction (superset containment) of
the listed tags; for `tags = "a, b ,b"` the predicate is satisfied exactly
by tag sets containing `{a, b}` — duplicates collapse. -/
theorem C5_tags_filter (q : ReqQuery) (t : String) (ht : q.tags = some t)
    (htr : t ≠ "") (hne : splitTags t ≠ []) :
    lookupKey (buildMongoQuery q) ("tags") =
      some (MVal.obj [(("$all"), SVal.arr (splitTags t))]) ∧
    (∀ docTags : List String,
      satisfiesAll (splitTags t) docTags ↔
        {x | x ∈ splitTags t} ⊆ {x | x ∈ docTags}) ∧
    (∀ docTags : List String,
      satisfiesAll (splitTags ("a, b ,b")) docTags ↔
        ({"a", "b"} : Set String) ⊆ {x | x ∈ docTags}) := by
  refine ⟨?_, ?_, ?_⟩
  · simp [buildMongoQuery, ht, htr, hne, lookupKey_setKey_self]
  · intro docTags
    simp [satisfiesAll, Set.subset_def]
  · intro docTags
    rw [show splitTags ("a, b ,b") = ["a", "b", "b"] from by decide]
    simp [satisfiesAll, Set.insert_subset_iff, Set.singleton_subset_iff]

/-- Witness: the constructed predicate for `tags = "a, b ,b"`, and a
concrete tag array containing `a` and `b` that satisfies it. -/
theorem C5_witness :
    lookupKey (buildMongoQuery { tags := some ("a, b ,b") }) ("tags") =
      some (MVal.obj [(("$all"), SVal.arr (["a", "b", "b"]))]) ∧
    satisfiesAll (splitTags ("a, b ,b")) ["b", "a", "c"] := by
  have h := C5_tags_filter { tags := some ("a, b ,b") } ("a, b ,b") rfl
    (by decide) (by decide)
  constructor
  · have h1 := h.1
    rw [show splitTags ("a, b ,b") = ["a", "b", "b"] from by decide] at h1
    exact h1
  · exact (h.2.2 ["b", "a", "c"]).mpr (by simp [Set.insert_subset_iff])

/-! ## Predicate construction -/

/-- C4: a non-reserved key ending in `[op]` for `op ∈ {gte, gt, lte, lt}`
maps the field to an operator object binding `$op` to the coerced value,
preserving every other operator already present on that field; a key that
does not match the pattern — in particular `field[op]` for any other
bracket-free operator token — becomes an equality predicate under the
literal key; and a value that parses as a number is always stored
numerically, never as a string. -/
theorem C4_predicate_builder (mq : List (String × MVal)) (key v : String) :
    (∀ f op, parseRangeKey key = some (f, op) →
      lookupKey (filterStep mq (key, v)) f =
        some (MVal.obj (setKey (spreadOf (lookupKey mq f)) (dollarOf op)
          (coerceSVal v))) ∧
      (∀ prev, lookupKey mq f = some (MVal.obj prev) →
        lookupKey (filterStep mq (key, v)) f =
          some (MVal.obj (setKey prev (dollarOf op) (coerceSVal v))) ∧
        lookupKey (setKey prev (dollarOf op) (coerceSVal v)) (dollarOf op) =
          some (coerceSVal v) ∧
        ∀ k, k ≠ dollarOf op →
          lookupKey (setKey prev (dollarOf op) (coerceSVal v)) k =
            lookupKey prev k)) ∧
    (parseRangeKey key = none →
      lookupKey (filterStep mq (key, v)) key = some (MVal.scalar (coerceSVal v))) ∧
    (∀ f o : String, o ≠ "" → (∀ c ∈ o.data, c ≠ '[') →
      o ≠ "gte" → o ≠ "gt" → o ≠ "lte" → o ≠ "lt" →
      parseRangeKey (f ++ "[" ++ o ++ "]") = none) ∧
    (∀ n, jsStrToNumber v = some n →
      coerceSVal v = SVal.num n ∧ ∀ s', coerceSVal v ≠ SVal.str s') := by
  refine ⟨?_, ?_, ?_, ?_⟩
  · intro f op hk
    constructor
    · simp [filterStep, hk, lookupKey_setKey_self]
    · intro prev hprev
      refine ⟨?_, lookupKey_setKey_self prev (dollarOf op) (coerceSVal v),
        fun k hkk => lookupKey_setKey_ne prev (dollarOf op) k (coerceSVal v) hkk⟩
      simp [filterStep, hk, hprev, lookupKey_setKey_self, spreadOf]
  · intro h
    simp [filterStep, h, lookupKey_setKey_self]
  · intro f o ho hbr h1 h2 h3 h4
    cases hp : parseRangeKey (f ++ "[" ++ o ++ "]") with
    | none => rfl
    | some pr =>
      exfalso
      obtain ⟨f', op⟩ := pr
      rw [parseRangeKey, Option.map_eq_some'] at hp
      obtain ⟨⟨fl, op'⟩, hpc, -⟩ := hp
      obtain ⟨hdecomp, -⟩ := parseRangeKeyCh_some_inv hpc
      have hdata : (f ++ "[" ++ o ++ "]").data = f.data ++ '[' :: (o.data ++ [']']) := by
        simp [String.data_append]
      rw [hdata] at hdecomp
      have hdecomp' : f.data ++ '[' :: (o.data ++ [']']) =
          fl ++ '[' :: (opChars op' ++ [']']) := by
        simpa [rangeSuffix] using hdecomp
      have heq2 := (rangeKey_decomp_unique hbr (opChars_bracketFree op') hdecomp').2
      cases op' with
      | gte => exact h1 (String.ext (show o.data = ("gte").data from heq2))
      | gt => exact h2 (String.ext (show o.data = ("gt").data from heq2))
      | lte => exact h3 (String.ext (show o.data = ("lte").data from heq2))
      | lt => exact h4 (String.ext (show o.data = ("lt").data from heq2))
  · intro n hn
    exact ⟨by simp [coerceSVal, hn], fun s' => by simp [coerceSVal, hn]⟩

/-- Witness: `price[lte]=20` merges a `$lte` binding into an existing
`$gte` object without destroying it; `price[eq]` is not a range key; the
numeric-looking value is stored as a number. -/
theorem C4_witness :
    lookupKey (filterStep [(("price"), MVal.obj [(("$gte"), SVal.num 10)])]
        (("price[lte]"), ("20"))) ("price") =
      some (MVal.obj [(("$gte"), SVal.num 10), (("$lte"), SVal.num 20)]) ∧
    parseRangeKey ("price[eq]") = none ∧
    coerceSVal ("20") = SVal.num 20 := by
  have h := C4_predicate_builder [(("price"), MVal.obj [(("$gte"), SVal.num 10)])]
    ("price[lte]") ("20")
  refine ⟨?_, ?_, ?_⟩
  · have h1 := ((h.1 ("price") ROp.lte (by decide)).2 [(("$gte"), SVal.num 10)]
      (by decide)).1
    rw [h1]
    decide
  · exact h.2.2.1 ("price") ("eq") (by decide) (by decide)
      (by decide) (by decide) (by decide) (by decide)
  · exact (h.2.2.2 20 (by decide)).1

/-! ## Order dependence across key shapes -/

/-- C10 is refuted on string-valued scalars: after the bare entry
`t = "ab"`, processing `t[gte] = 3` spreads the string, so its characters
survive as index-keyed entries next to `$gte` instead of the scalar being
discarded outright. -/
theorem C10_counterexample : ¬ claimC10Prop := by
  intro h
  have h2 := h ("t") ("ab") ("3") ROp.gte (by decide) (by decide)
  exact absurd h2 (by decide)

/-- C10 amended: predicate construction is order-dependent and destructive
across key shapes — a later bare key replaces whatever is stored on the
field by a scalar equality, and a later range key replaces a numeric
scalar by a fresh operator object; but a string scalar is not discarded
cleanly: its characters leak into the operator object as index-keyed
entries (for `t = "ab"` then `t[gte] = 3`, the result holds
`0 ↦ "a"`, `1 ↦ "b"` and `$gte ↦ 3`). -/
theorem C10_order_dependence (mq : List (String × MVal)) (f v key : String) (op : ROp) :
    (parseRangeKey f = none →
      lookupKey (filterStep mq (f, v)) f = some (MVal.scalar (coerceSVal v))) ∧
    (∀ q, lookupKey mq f = some (MVal.scalar (SVal.num q)) →
      parseRangeKey key = some (f, op) →
      lookupKey (filterStep mq (key, v)) f =
        some (MVal.obj [(dollarOf op, coerceSVal v)])) ∧
    lookupKey (List.foldl filterStep [] [(("t"), ("ab")), (("t[gte]"), ("3"))]) ("t") =
      some (MVal.obj [(("0"), SVal.str ("a")), (("1"), SVal.str ("b")),
        (("$gte"), SVal.num 3)]) := by
  refine ⟨?_, ?_, by decide⟩
  · intro h
    simp [filterStep, h, lookupKey_setKey_self]
  · intro q hq hk
    simp [filterStep, hk, hq, lookupKey_setKey_self, spreadOf, setKey]

/-- Witness: a bare `p=5` overwrites an existing `$gte` object with the
scalar 5, and a later `p[lt]=9` on a numeric scalar leaves exactly the
fresh operator object. -/
theorem C10_witness :
    lookupKey (filterStep [(("p"), MVal.obj [(("$gte"), SVal.num 1)])]
        (("p"), ("5"))) ("p") = some (MVal.scalar (SVal.num 5)) ∧
    lookupKey (filterStep [(("p"), MVal.scalar (SVal.num 5))]
        (("p[lt]"), ("9"))) ("p") =
      some (MVal.obj [(("$lt"), SVal.num 9)]) := by
  have h1 := (C10_order_dependence [(("p"), MVal.obj [(("$gte"), SVal.num 1)])]
    ("p") ("5") ("p") ROp.lt).1 (by decide)
  have h2 := (C10_order_dependence [(("p"), MVal.scalar (SVal.num 5))]
    ("p") ("9") ("p[lt]") ROp.lt).2.1 5 (by decide) (by decide)
  constructor
  · rw [h1]
    decide
  · rw [h2]
    decide

end ServicesGe
